import Mathlib

set_option maxRecDepth 100000

/-!
Shallow embedding of the go-sccp repository (package `sccp` and its `utils`
package) for checking the natural-language specification against the code.

Byte buffers are modelled as `List Nat` whose elements are intended to be
bytes (`< 256`).  Go `uint8` arithmetic that can wrap is modelled with
explicit `% 256`; plain moves of byte-typed values are modelled verbatim.
Fallible Go functions return `Except SccpError _`; a Go runtime panic
(out-of-range index or slice) is modelled by the distinguished error value
`SccpError.panicOOB`, which is not a value the Go code ever *returns*.
Strings are modelled as `List Char`.
-/

namespace Sccp

/-- Error outcomes of the embedded code.  `eof` models `io.ErrUnexpectedEOF`
(the truncated-buffer error), `panicOOB` models a Go runtime panic caused by
an out-of-range index or slice expression, `addrErr` models a failure
returned by the (external) party-address substructure parser, and
`unsupported tag` models `UnsupportedTypeError(tag)`. -/
inductive SccpError where
  | eof
  | panicOOB
  | addrErr
  | unsupported (tag : Nat)
deriving DecidableEq, Repr

/-- Go slice expression `b[lo:hi]`: panics unless `lo ≤ hi ≤ len(b)`. -/
def goSlice (b : List Nat) (lo hi : Nat) : Except SccpError (List Nat) :=
  if lo ≤ hi ∧ hi ≤ b.length then .ok ((b.drop lo).take (hi - lo)) else .error .panicOOB

/-- Go index expression `b[i]`: panics unless `i < len(b)`. -/
def goIndex (b : List Nat) (i : Nat) : Except SccpError Nat :=
  if i < b.length then .ok (b.getD i 0) else .error .panicOOB

/-- Go index assignment `b[i] = v`: panics unless `i < len(b)`. -/
def goSet (b : List Nat) (i v : Nat) : Except SccpError (List Nat) :=
  if i < b.length then .ok (b.set i v) else .error .panicOOB

/-! ## utils package: digit-swap codec (`utils/utils.go`) -/

/-- Decoding of one hex digit character, as in Go `encoding/hex.fromHexChar`,
which compares against the three ranges: digits `0-9`, lowercase `a-f` and
uppercase `A-F` are accepted (`c - '0'`, `c - 'a' + 10`, `c - 'A' + 10`). -/
def fromHexChar (c : Char) : Option Nat :=
  if '0' ≤ c ∧ c ≤ '9' then some (c.toNat - 48)
  else if 'a' ≤ c ∧ c ≤ 'f' then some (c.toNat - 97 + 10)
  else if 'A' ≤ c ∧ c ≤ 'F' then some (c.toNat - 65 + 10)
  else none

/-- Encoding of one value `< 16` to its lowercase hex digit, as in Go
`encoding/hex`, whose digit table is the string `0123456789abcdef`
(codepoint 48 is the digit zero, codepoint 87 + 10 is the letter a). -/
def toHexChar (v : Nat) : Char :=
  if v < 10 then Char.ofNat (48 + v) else Char.ofNat (87 + v)

/-- Go `encoding/hex.DecodeString`: decodes pairs of hex digits into bytes,
failing on a non-hex character or an odd-length input. -/
def hexDecode : List Char → Option (List Nat)
  | [] => some []
  | [_] => none
  | c1 :: c2 :: rest => do
    let hi ← fromHexChar c1
    let lo ← fromHexChar c2
    let tail ← hexDecode rest
    pure ((hi * 16 + lo) :: tail)

/-- Go `encoding/hex.EncodeToString`: each byte becomes two lowercase hex
digits, high nibble first. -/
def hexEncode : List Nat → List Char
  | [] => []
  | v :: rest => toHexChar ((v / 16) % 16) :: toHexChar (v % 16) :: hexEncode rest

/-- `swap` from `utils/utils.go`: exchanges the two nibbles of every byte
(`((r >> 4) & 0xf) + ((r << 4) & 0xf0)`, written arithmetically). -/
def swap (raw : List Nat) : List Nat :=
  raw.map (fun v => (v / 16) % 16 + (v % 16) * 16)

/-- `StrToSwappedBytes` from `utils/utils.go`: hex-decode the string (with the
filler appended when the length is odd), then swap nibbles.  `none` models the
error return for a non-hex character or odd decoded length. -/
def StrToSwappedBytes (s filler : List Char) : Option (List Nat) :=
  (if s.length % 2 = 0 then hexDecode s else hexDecode (s ++ filler)).map swap

/-- `SwappedBytesToStr` from `utils/utils.go`: swap nibbles, hex-encode; when
`cutLastDigit` is set the Go code evaluates `s[:len(s)-1]`, which panics on an
empty string — that panic is modelled by `none`. -/
def SwappedBytesToStr (raw : List Nat) (cutLastDigit : Bool) : Option (List Char) :=
  let s := hexEncode (swap raw)
  if cutLastDigit then
    if s.length = 0 then none else some s.dropLast
  else some s

/-! ## params package (external collaborator, modelled from the spec) -/

/-- Modelled from the spec: the protocol-class codec (`params.ProtocolClass`,
not under `src/`) — "given a numeric class (0–3) and a boolean return-on-error
flag, produces/consumes exactly 1 byte".  The value is that one byte; the
return-on-error flag occupies the high bit. -/
def NewProtocolClass (cls : Nat) (retOnErr : Bool) : Nat :=
  (cls % 256) ||| (if retOnErr then 128 else 0)

/-- Modelled from the spec: `ProtocolClass.Value()` returns the single byte of
the protocol-class field. -/
def ProtocolClass.Value (pc : Nat) : Nat := pc

/-- Modelled from the spec: `ProtocolClass.Read` consumes exactly 1 byte from
the front of the buffer, returning the value and the number of bytes read. -/
def ProtocolClass.Read (b : List Nat) : Except SccpError (Nat × Nat) :=
  match b with
  | [] => .error .eof
  | v :: _ => .ok (v, 1)

/-- Modelled from the spec: a party address (`params.PartyAddress`, not under
`src/`) is "a self-length-prefixed variable-length block whose first byte is
its own remaining length"; `body` is the block after that first byte. -/
structure PartyAddress where
  body : List Nat
deriving DecidableEq, Repr

/-- Modelled from the spec: the `Length()` accessor "used by the Framing
Engine to derive pointers" — the self-length prefix, i.e. the byte count of
the block after the length byte. -/
def PartyAddress.Length (p : PartyAddress) : Nat := p.body.length

/-- Modelled from the spec: serialized size of the block — the length byte
plus the body. -/
def PartyAddress.MarshalLen (p : PartyAddress) : Nat := p.body.length + 1

/-- Modelled from the spec: `PartyAddress.MarshalTo` writes the length byte
and the body into the front of the given slice, failing with the truncation
error when the slice is too short. -/
def PartyAddress.MarshalTo (p : PartyAddress) (b : List Nat) : Except SccpError (List Nat) :=
  if b.length < p.body.length + 1 then .error .eof
  else .ok ((p.body.length % 256 :: p.body) ++ b.drop (p.body.length + 1))

/-- Modelled from the spec: `params.ParseCalledPartyAddress` reads the
self-length prefix and takes that many following bytes as the block body,
failing when the slice is empty or shorter than the prefix declares. -/
def ParseCalledPartyAddress (b : List Nat) : Except SccpError PartyAddress :=
  match b with
  | [] => .error .addrErr
  | l :: rest => if rest.length < l then .error .addrErr else .ok ⟨rest.take l⟩

/-- Modelled from the spec: `params.ParseCallingPartyAddress`, same block
format as the called party address. -/
def ParseCallingPartyAddress (b : List Nat) : Except SccpError PartyAddress :=
  ParseCalledPartyAddress b

/-! ## sccp package: message type registry (`sccp.go`, in `src/unnamed`) -/

/-- Message type tag values (Go `MsgType` constants, `iota` from 1). -/
def MsgTypeCR : Nat := 1
def MsgTypeCC : Nat := 2
def MsgTypeCREF : Nat := 3
def MsgTypeRLSD : Nat := 4
def MsgTypeRLC : Nat := 5
def MsgTypeDT1 : Nat := 6
def MsgTypeDT2 : Nat := 7
def MsgTypeAK : Nat := 8
def MsgTypeUDT : Nat := 9
def MsgTypeUDTS : Nat := 10
def MsgTypeED : Nat := 11
def MsgTypeEA : Nat := 12
def MsgTypeRSR : Nat := 13
def MsgTypeRSC : Nat := 14
def MsgTypeERR : Nat := 15
def MsgTypeIT : Nat := 16
def MsgTypeXUDT : Nat := 17
def MsgTypeXUDTS : Nat := 18
def MsgTypeLUDT : Nat := 19
def MsgTypeLUDTS : Nat := 20

/-! ## sccp package: UDT message (`udt.go` part of `src/utils/utils.go`) -/

/-- The Go `UDT` struct.  The Go field `Type` is named `MType` here because
`Type` is a Lean keyword; all other field names follow the source.  The two
party-address fields are modelled as always present (the code paths under
study never produce `nil` addresses). -/
structure UDT where
  MType : Nat
  ProtocolClass : Nat
  Ptr1 : Nat
  Ptr2 : Nat
  Ptr3 : Nat
  CalledPartyAddress : PartyAddress
  CallingPartyAddress : PartyAddress
  DataLength : Nat
  Data : List Nat
deriving DecidableEq, Repr

/-- `UDT.SetLength`: `u.DataLength = uint8(len(u.Data))` — the Go `uint8`
conversion truncates modulo 256. -/
def UDT.SetLength (u : UDT) : UDT :=
  { u with DataLength := u.Data.length % 256 }

/-- `NewUDT`: builds the message and derives the pointers with Go `uint8`
arithmetic (`u.Ptr2 = u.Ptr1 + uint8(cdpa.Length())`, etc.). -/
def NewUDT (pcls : Nat) (retOnErr : Bool) (cdpa cgpa : PartyAddress) (data : List Nat) : UDT :=
  let u : UDT :=
    { MType := MsgTypeUDT
      ProtocolClass := NewProtocolClass pcls retOnErr
      Ptr1 := 3
      Ptr2 := 0
      Ptr3 := 0
      CalledPartyAddress := cdpa
      CallingPartyAddress := cgpa
      DataLength := 0
      Data := data }
  let u := { u with Ptr2 := (u.Ptr1 + cdpa.Length % 256) % 256 }
  let u := { u with Ptr3 := (u.Ptr2 + cgpa.Length % 256) % 256 }
  u.SetLength

/-- `UDT.MarshalLen`: `6 + called-address length + calling-address length +
data length` (both addresses present). -/
def UDT.MarshalLen (u : UDT) : Nat :=
  6 + u.CalledPartyAddress.MarshalLen + u.CallingPartyAddress.MarshalLen + u.Data.length

/-- `UDT.MarshalTo`: writes the header bytes and pointers with a bounds check
before each pointer use, then the two address blocks into the slices the
pointers delimit, then the data-length byte and the payload.  The Go function
mutates the caller's buffer; the embedding returns the written buffer.  All
pointer sums are Go `uint8` additions, hence the `% 256`. -/
def UDT.MarshalTo (u : UDT) (b : List Nat) : Except SccpError (List Nat) :=
  let l := b.length
  if l < 5 then .error .eof else
  let b1 := ((b.set 0 u.MType).set 1 (ProtocolClass.Value u.ProtocolClass)).set 2 u.Ptr1
  if l < u.Ptr1 then .error .eof else
  let b2 := b1.set 3 u.Ptr2
  if l < (u.Ptr2 + 3) % 256 then .error .eof else
  let b3 := b2.set 4 u.Ptr3
  if l < (u.Ptr3 + 5) % 256 then .error .eof else
  match goSlice b3 5 ((u.Ptr2 + 3) % 256) with
  | .error e => .error e
  | .ok seg1 =>
  match u.CalledPartyAddress.MarshalTo seg1 with
  | .error e => .error e
  | .ok seg1w =>
  let b4 := b3.take 5 ++ seg1w ++ b3.drop ((u.Ptr2 + 3) % 256)
  match goSlice b4 ((u.Ptr2 + 3) % 256) ((u.Ptr3 + 4) % 256) with
  | .error e => .error e
  | .ok seg2 =>
  match u.CallingPartyAddress.MarshalTo seg2 with
  | .error e => .error e
  | .ok seg2w =>
  let b5 := b4.take ((u.Ptr2 + 3) % 256) ++ seg2w ++ b4.drop ((u.Ptr3 + 4) % 256)
  match goSet b5 ((u.Ptr3 + 4) % 256) u.DataLength with
  | .error e => .error e
  | .ok b6 =>
  let offset := (u.Ptr3 + 5) % 256
  if u.DataLength ≤ l - offset then
    .ok (b6.take offset ++ u.Data.take (l - offset)
          ++ b6.drop (offset + min (l - offset) u.Data.length))
  else .error .eof

/-- `UDT.MarshalBinary`: allocates a zeroed buffer of `MarshalLen` bytes and
marshals into it. -/
def UDT.MarshalBinary (u : UDT) : Except SccpError (List Nat) :=
  u.MarshalTo (List.replicate u.MarshalLen 0)

/-- `UDT.UnmarshalBinary`: requires more than 5 bytes, reads the type byte,
the protocol class, and the three pointers (validating each pointer sum with
Go `uint8` arithmetic), parses the two address blocks, reads the data-length
byte and takes that many payload bytes. -/
def UDT.UnmarshalBinary (b : List Nat) : Except SccpError UDT :=
  let l := b.length
  if l ≤ 5 then .error .eof else
  let ty := b.getD 0 0
  match ProtocolClass.Read (b.drop 1) with
  | .error e => .error e
  | .ok (pcv, n) =>
  let offset := 1 + n
  let p1 := b.getD offset 0
  if l < p1 then .error .eof else
  let p2 := b.getD (offset + 1) 0
  if l < (p2 + 3) % 256 then .error .eof else
  let p3 := b.getD (offset + 2) 0
  if l < (p3 + 5) % 256 then .error .eof else
  match goSlice b (offset + 3) ((p2 + 3) % 256) with
  | .error e => .error e
  | .ok s1 =>
  match ParseCalledPartyAddress s1 with
  | .error e => .error e
  | .ok cd =>
  match goSlice b ((p2 + 3) % 256) ((p3 + 4) % 256) with
  | .error e => .error e
  | .ok s2 =>
  match ParseCallingPartyAddress s2 with
  | .error e => .error e
  | .ok cg =>
  match goIndex b ((p3 + 4) % 256) with
  | .error e => .error e
  | .ok dl =>
  if (p3 + 5) % 256 + dl ≤ l then
    .ok { MType := ty
          ProtocolClass := pcv
          Ptr1 := p1
          Ptr2 := p2
          Ptr3 := p3
          CalledPartyAddress := cd
          CallingPartyAddress := cg
          DataLength := dl
          Data := (b.drop ((p3 + 5) % 256)).take dl }
  else .error .eof

/-- `ParseUDT`: decode a buffer as a UDT. -/
def ParseUDT (b : List Nat) : Except SccpError UDT :=
  UDT.UnmarshalBinary b

/-- `ParseMessage` (`sccp.go`): reads `b[0]` with no emptiness check (the
empty buffer is a runtime panic), dispatches tag 9 to the UDT parser, and
fails closed with `UnsupportedTypeError(b[0])` for every other tag. -/
def ParseMessage (b : List Nat) : Except SccpError UDT :=
  match b with
  | [] => .error .panicOOB
  | t :: rest =>
    if t = MsgTypeUDT then UDT.UnmarshalBinary (t :: rest)
    else .error (.unsupported t)

/-- The sixteen characters the Go hex encoder can emit (the hex digit table
`0123456789abcdef`). -/
def lowerHexChars : List Char :=
  (List.range 16).map toHexChar

/-- A character is a lowercase hex digit. -/
def IsLowerHexDigit (c : Char) : Prop := c ∈ lowerHexChars

instance (c : Char) : Decidable (IsLowerHexDigit c) := by
  unfold IsLowerHexDigit; exact inferInstance

end Sccp

deriving instance DecidableEq for Except

namespace Sccp

/-! ## Theorems -/

/-- C10: `SetLength` stores the payload length reduced modulo 256, so for a
payload longer than 255 bytes `NewUDT` silently records a declared data
length different from the actual payload length. -/
theorem setLength_stores_mod256 :
    (∀ u : UDT, u.SetLength.DataLength = u.Data.length % 256) ∧
    (∀ (pcls : Nat) (r : Bool) (A B : PartyAddress) (data : List Nat),
      255 < data.length →
        (NewUDT pcls r A B data).DataLength = data.length % 256 ∧
        (NewUDT pcls r A B data).DataLength ≠ data.length) := by
  refine ⟨fun u => rfl, fun pcls r A B data h => ⟨rfl, ?_⟩⟩
  have : (NewUDT pcls r A B data).DataLength = data.length % 256 := rfl
  rw [this]
  omega

/-- Witness for C10 at a 256-byte payload. -/
theorem setLength_stores_mod256_witness :
    (NewUDT 0 false ⟨[]⟩ ⟨[]⟩ (List.replicate 256 0)).DataLength = 256 % 256 ∧
    (NewUDT 0 false ⟨[]⟩ ⟨[]⟩ (List.replicate 256 0)).DataLength
      ≠ (List.replicate 256 0).length := by
  have h := setLength_stores_mod256.2 0 false ⟨[]⟩ ⟨[]⟩ (List.replicate 256 0)
    (by simp)
  exact ⟨by simpa using h.1, h.2⟩

/-- C5 counterexample: with a 256-byte payload the constructed UDT has
`DataLength = 0`, not the payload length, refuting the claim that the UDT
returned by `NewUDT` always has `DataLength` equal to the payload length. -/
theorem newUDT_derivation_ce :
    (NewUDT 0 false ⟨[]⟩ ⟨[]⟩ (List.replicate 256 0)).DataLength
      ≠ (List.replicate 256 0).length := by
  have : (NewUDT 0 false ⟨[]⟩ ⟨[]⟩ (List.replicate 256 0)).DataLength
      = (List.replicate 256 0).length % 256 := rfl
  rw [this]
  simp

/-- C5 amended: the pointers and data length derived by `NewUDT` are the
spec's expressions reduced modulo 256 (Go `uint8` arithmetic): `Ptr1 = 3`,
`Ptr2 = (3 + length(A)) mod 256`, `Ptr3 = (Ptr2 + length(B)) mod 256`, and
`DataLength = len(data) mod 256`. -/
theorem newUDT_derivation_mod256 :
    ∀ (pcls : Nat) (r : Bool) (A B : PartyAddress) (data : List Nat),
      (NewUDT pcls r A B data).Ptr1 = 3 ∧
      (NewUDT pcls r A B data).Ptr2 = (3 + A.Length) % 256 ∧
      (NewUDT pcls r A B data).Ptr3 = ((3 + A.Length) % 256 + B.Length) % 256 ∧
      (NewUDT pcls r A B data).DataLength = data.length % 256 := by
  intro pcls r A B data
  refine ⟨rfl, ?_, ?_, rfl⟩
  · have : (NewUDT pcls r A B data).Ptr2 = (3 + A.Length % 256) % 256 := rfl
    rw [this]; omega
  · have : (NewUDT pcls r A B data).Ptr3
        = ((3 + A.Length % 256) % 256 + B.Length % 256) % 256 := rfl
    rw [this]; omega

/-- C6: every first byte other than 9 (UDT) makes `ParseMessage` fail with
`UnsupportedTypeError` carrying exactly that byte; tag 9 is the only one
dispatched to a parser. -/
theorem parseMessage_unsupported_tags :
    (∀ (t : Nat) (rest : List Nat), t ≠ MsgTypeUDT →
        ParseMessage (t :: rest) = .error (.unsupported t)) ∧
    (∀ rest : List Nat,
        ParseMessage (MsgTypeUDT :: rest) = UDT.UnmarshalBinary (MsgTypeUDT :: rest)) := by
  constructor
  · intro t rest h
    simp [ParseMessage, h]
  · intro rest
    simp [ParseMessage]

/-- Witness for C6 at tag 5 (RLC). -/
theorem parseMessage_unsupported_tags_witness :
    ParseMessage [5, 1, 2] = .error (.unsupported 5) :=
  parseMessage_unsupported_tags.1 5 [1, 2] (by decide)

/-- C9: `ParseMessage` reads `b[0]` without an emptiness check — on the empty
buffer the embedded result is the out-of-bounds panic marker, not a returned
error — and on any nonempty buffer it either dispatches tag 9 to the UDT
parser or returns `UnsupportedTypeError` with the first byte. -/
theorem parseMessage_empty_panics :
    ParseMessage [] = .error .panicOOB ∧
    (∀ (t : Nat) (rest : List Nat),
      ParseMessage (t :: rest) =
        if t = MsgTypeUDT then UDT.UnmarshalBinary (t :: rest)
        else .error (.unsupported t)) :=
  ⟨rfl, fun _ _ => rfl⟩

/-- C8 counterexample: decoding the empty byte sequence with the
drop-last-nibble flag set evaluates `s[:len(s)-1]` on an empty string, a Go
runtime panic (modelled as `none`), refuting totality. -/
theorem swappedBytesToStr_empty_cut_ce :
    ¬ (SwappedBytesToStr [] true).isSome := by decide

/-- C8 amended: `SwappedBytesToStr` returns a string for every input except
the empty byte sequence with the drop-last-nibble flag set (where the Go code
panics). -/
theorem swappedBytesToStr_total :
    ∀ (raw : List Nat) (cut : Bool), raw ≠ [] ∨ cut = false →
      (SwappedBytesToStr raw cut).isSome := by
  intro raw cut h
  cases cut with
  | false => simp [SwappedBytesToStr]
  | true =>
    rcases h with h | h
    · rcases raw with _ | ⟨v, rest⟩
      · exact absurd rfl h
      · simp [SwappedBytesToStr, swap, hexEncode]
    · cases h

/-- C2 counterexample: a 10-byte buffer with `Ptr3 = 251`.  The unbounded sum
`pointer3 + 5 = 256` exceeds the buffer length, so the claim demands an
immediate truncation error; but the code compares against the `uint8` sum
`(251 + 5) mod 256 = 0`, the check passes, and decoding goes on to evaluate
the out-of-range slice `b[6:255]` — a panic, not the truncation error. -/
theorem unmarshal_ptr_checks_ce :
    (List.length [9, 0, 3, 3, 251, 0, 0, 0, 0, 0] < 251 + 5) ∧
    UDT.UnmarshalBinary [9, 0, 3, 3, 251, 0, 0, 0, 0, 0] ≠ .error .eof ∧
    UDT.UnmarshalBinary [9, 0, 3, 3, 251, 0, 0, 0, 0, 0] = .error .panicOOB :=
  ⟨by decide, by decide, by decide⟩

/-- C2 amended: the pointer validations compare the buffer length against
`(pointer2 + 3) mod 256` and `(pointer3 + 5) mod 256` (Go `uint8` sums, read
at offsets 3 and 4): whenever the buffer is shorter than either wrapped sum,
decoding fails with the truncation error at or before that check. -/
theorem unmarshal_ptr_checks_mod256 :
    ∀ (b : List Nat), 5 < b.length →
      (b.length < (b.getD 3 0 + 3) % 256 ∨ b.length < (b.getD 4 0 + 5) % 256) →
      UDT.UnmarshalBinary b = .error .eof := by
  intro b h5 h
  rcases b with _ | ⟨x0, b⟩; · simp at h5
  rcases b with _ | ⟨x1, b⟩; · simp at h5
  rcases b with _ | ⟨x2, b⟩; · simp at h5
  rcases b with _ | ⟨x3, b⟩; · simp at h5
  rcases b with _ | ⟨x4, b⟩; · simp at h5
  simp only [UDT.UnmarshalBinary, ProtocolClass.Read, List.drop_succ_cons, List.drop_zero,
    List.getD_cons_zero, List.getD_cons_succ, List.length_cons] at *
  split_ifs <;> first | rfl | omega

/-- Witness for C2 (amended) at a buffer with `Ptr3 = 200`. -/
theorem unmarshal_ptr_checks_mod256_witness :
    UDT.UnmarshalBinary [9, 0, 3, 3, 200, 0, 0, 0, 0, 0] = .error .eof :=
  unmarshal_ptr_checks_mod256 [9, 0, 3, 3, 200, 0, 0, 0, 0, 0] (by decide)
    (Or.inr (by decide))

/-- C3: any buffer shorter than 6 bytes is rejected with the truncation
error; and a buffer whose declared data-length byte (read at
`pointer3 + 4` once the pointer checks pass and both party addresses parse)
exceeds the bytes remaining after it is rejected with the same error. -/
theorem unmarshal_bounds_rejection :
    (∀ b : List Nat, b.length < 6 → UDT.UnmarshalBinary b = .error .eof) ∧
    (∀ (b s1 s2 : List Nat) (cd cg : PartyAddress) (dl : Nat),
      5 < b.length →
      goSlice b 5 ((b.getD 3 0 + 3) % 256) = .ok s1 →
      ParseCalledPartyAddress s1 = .ok cd →
      goSlice b ((b.getD 3 0 + 3) % 256) ((b.getD 4 0 + 4) % 256) = .ok s2 →
      ParseCallingPartyAddress s2 = .ok cg →
      goIndex b ((b.getD 4 0 + 4) % 256) = .ok dl →
      b.length < (b.getD 4 0 + 5) % 256 + dl →
      UDT.UnmarshalBinary b = .error .eof) := by
  constructor
  · intro b h
    have hle : b.length ≤ 5 := by omega
    simp [UDT.UnmarshalBinary, hle]
  · intro b s1 s2 cd cg dl h5 hs1 hcd hs2 hcg hdl hbig
    rcases b with _ | ⟨x0, b⟩; · simp at h5
    rcases b with _ | ⟨x1, b⟩; · simp at h5
    rcases b with _ | ⟨x2, b⟩; · simp at h5
    rcases b with _ | ⟨x3, b⟩; · simp at h5
    rcases b with _ | ⟨x4, b⟩; · simp at h5
    simp only [UDT.UnmarshalBinary, ProtocolClass.Read, List.drop_succ_cons, List.drop_zero,
      List.getD_cons_zero, List.getD_cons_succ, List.length_cons] at *
    norm_num at *
    intro h1 h2 h3 h4
    simp only [hs1, hcd, hs2, hcg, hdl]
    rw [if_neg (by omega)]

/-- Witness for C3: the empty buffer, and an 8-byte frame declaring 5 payload
bytes with none remaining. -/
theorem unmarshal_bounds_rejection_witness :
    UDT.UnmarshalBinary [] = .error .eof ∧
    UDT.UnmarshalBinary [9, 0, 3, 3, 3, 0, 0, 5] = .error .eof :=
  ⟨unmarshal_bounds_rejection.1 [] (by decide),
   unmarshal_bounds_rejection.2 [9, 0, 3, 3, 3, 0, 0, 5] [0] [0] ⟨[]⟩ ⟨[]⟩ 5
     (by decide) (by decide) (by decide) (by decide) (by decide) (by decide) (by decide)⟩

/-- Each character the hex encoder can emit decodes back to a value below 16
that re-encodes to the same character. -/
theorem lowerHex_table :
    ∀ c ∈ lowerHexChars, (fromHexChar c).isSome ∧
      (fromHexChar c).getD 0 < 16 ∧ toHexChar ((fromHexChar c).getD 0) = c := by decide

/-- Hex-decoding an even-length lowercase-hex string succeeds, yields bytes,
and hex-encoding them restores the string. -/
theorem hexDecode_hexEncode :
    ∀ (s : List Char), s.length % 2 = 0 → (∀ c ∈ s, IsLowerHexDigit c) →
      ∃ bs, hexDecode s = some bs ∧ (∀ v ∈ bs, v < 256) ∧ hexEncode bs = s
  | [], _, _ => ⟨[], rfl, by simp, rfl⟩
  | [c], h, _ => by simp at h
  | c1 :: c2 :: rest, heven, hhex => by
    obtain ⟨bs, hdec, hlt, henc⟩ := hexDecode_hexEncode rest
      (by simp only [List.length_cons] at heven; omega) (fun c hc => hhex c (by simp [hc]))
    have t1 := lowerHex_table c1 (hhex c1 (by simp))
    have t2 := lowerHex_table c2 (hhex c2 (by simp))
    obtain ⟨v1, hv1⟩ := Option.isSome_iff_exists.mp t1.1
    obtain ⟨v2, hv2⟩ := Option.isSome_iff_exists.mp t2.1
    rw [hv1] at t1; rw [hv2] at t2
    simp only [Option.getD_some] at t1 t2
    refine ⟨(v1 * 16 + v2) :: bs, ?_, ?_, ?_⟩
    · simp [hexDecode, hv1, hv2, hdec]
    · intro v hv
      rcases List.mem_cons.mp hv with rfl | hv
      · omega
      · exact hlt v hv
    · have e1 : (v1 * 16 + v2) / 16 % 16 = v1 := by omega
      have e2 : (v1 * 16 + v2) % 16 = v2 := by omega
      simp [hexEncode, e1, e2, t1.2, t2.2, henc]

/-- Swapping the nibbles of every byte twice is the identity on byte lists. -/
theorem swap_swap (bs : List Nat) (h : ∀ v ∈ bs, v < 256) : swap (swap bs) = bs := by
  induction bs with
  | nil => rfl
  | cons v rest ih =>
    have hv := h v (by simp)
    have hrest := ih (fun x hx => h x (by simp [hx]))
    simp only [swap, List.map_cons] at hrest ⊢
    rw [hrest]
    congr 1
    have h2 : v / 16 % 16 = v / 16 := by omega
    rw [h2]
    have h3 : (v / 16 + v % 16 * 16) / 16 = v % 16 := by omega
    have h4 : (v / 16 + v % 16 * 16) % 16 = v / 16 := by omega
    rw [h3, h4]
    omega

/-- C7 counterexample: `"AA"` is an even-length string of hex-digit
characters (Go's hex decoder accepts uppercase), but the encode/decode
composition returns `"aa"`, not `"AA"`, because the Go hex encoder emits
lowercase digits. -/
theorem strToSwapped_roundtrip_ce :
    (StrToSwappedBytes ['A', 'A'] ['f']).bind (fun raw => SwappedBytesToStr raw false)
      ≠ some ['A', 'A'] := by decide

/-- C7 amended: for every even-length string of *lowercase* hex digits,
`SwappedBytesToStr (StrToSwappedBytes s "f") false` returns exactly `s`. -/
theorem strToSwapped_roundtrip_lower (s : List Char) (heven : s.length % 2 = 0)
    (hhex : ∀ c ∈ s, IsLowerHexDigit c) :
    (StrToSwappedBytes s ['f']).bind (fun raw => SwappedBytesToStr raw false) = some s := by
  obtain ⟨bs, hdec, hlt, henc⟩ := hexDecode_hexEncode s heven hhex
  simp [StrToSwappedBytes, heven, hdec, SwappedBytesToStr, swap_swap bs hlt, henc]

/-- Witness for C7 (amended) at the string `"0a"`. -/
theorem strToSwapped_roundtrip_lower_witness :
    (StrToSwappedBytes ['0', 'a'] ['f']).bind (fun raw => SwappedBytesToStr raw false)
      = some ['0', 'a'] :=
  strToSwapped_roundtrip_lower ['0', 'a'] (by decide) (by decide)

/-- C4 counterexample: for the UDT built from protocol class 0 (no
return-on-error), two empty party addresses and payload `[0xDE, 0xAD]`, the
serialized length is 10, not 8, and the encoding is not the 8-byte string the
claim expects (with pointer bytes 3,3,3 the code writes the data-length byte
at index `Ptr3 + 4 = 7`, and each address block occupies its length byte). -/
theorem newUDT_concrete_scenario_ce :
    (NewUDT 0 false ⟨[]⟩ ⟨[]⟩ [0xDE, 0xAD]).MarshalLen ≠ 8 ∧
    (NewUDT 0 false ⟨[]⟩ ⟨[]⟩ [0xDE, 0xAD]).MarshalBinary
      ≠ .ok [0x09, 0x00, 0x03, 0x03, 0x03, 0x02, 0xDE, 0xAD] := by decide

/-- C4 amended: that UDT marshals to the 10-byte string
`[0x09, 0x00, 0x03, 0x03, 0x03, 0x00, 0x00, 0x02, 0xDE, 0xAD]` (the two
`0x00` bytes are the empty addresses' self-length prefixes), `MarshalLen`
is 10, and decoding that buffer reproduces the constructed value. -/
theorem newUDT_concrete_scenario :
    (NewUDT 0 false ⟨[]⟩ ⟨[]⟩ [0xDE, 0xAD]).MarshalBinary
      = .ok [0x09, 0x00, 0x03, 0x03, 0x03, 0x00, 0x00, 0x02, 0xDE, 0xAD] ∧
    (NewUDT 0 false ⟨[]⟩ ⟨[]⟩ [0xDE, 0xAD]).MarshalLen = 10 ∧
    ParseUDT [0x09, 0x00, 0x03, 0x03, 0x03, 0x00, 0x00, 0x02, 0xDE, 0xAD]
      = .ok (NewUDT 0 false ⟨[]⟩ ⟨[]⟩ [0xDE, 0xAD]) := by decide

/-- C1 counterexample: a UDT built by `NewUDT` from a 256-byte payload (and
empty addresses) does not survive the encode/decode round trip — its stored
`DataLength` is `256 mod 256 = 0`, so decoding the marshalled bytes yields an
empty payload. -/
theorem udt_roundtrip_ce :
    ((NewUDT 0 false ⟨[]⟩ ⟨[]⟩ (List.replicate 256 0)).MarshalBinary.bind ParseUDT)
      ≠ .ok (NewUDT 0 false ⟨[]⟩ ⟨[]⟩ (List.replicate 256 0)) := by decide

/-- Witness for C8 at a one-byte input with the flag set. -/
theorem swappedBytesToStr_total_witness :
    (SwappedBytesToStr [7] true).isSome :=
  swappedBytesToStr_total [7] true (Or.inl (by decide))

/-- Expanding five cells of a replicated list. -/
theorem replicate_add5 {α : Type} (n : Nat) (x : α) :
    List.replicate (n + 5) x = x :: x :: x :: x :: x :: List.replicate n x := by
  rw [show n + 5 = ((((n + 1) + 1) + 1) + 1) + 1 from rfl]
  simp [List.replicate_succ]

/-- Writing at an index that lands past a prefix writes into the suffix. -/
theorem set_append_len_add {α : Type} (xs ys : List α) (n : Nat) (v : α) :
    List.set (xs ++ ys) (xs.length + n) v = xs ++ List.set ys n v := by
  induction xs with
  | nil => simp
  | cons x xt ih => simp [List.set_cons_succ, Nat.succ_add, ih]

/-- Writing at the index right after a prefix writes the suffix head. -/
theorem set_append_len {α : Type} (xs ys : List α) (v : α) :
    List.set (xs ++ ys) xs.length v = xs ++ List.set ys 0 v := by
  have h := set_append_len_add xs ys 0 v
  simpa using h

/-- Characterization of the fields of a freshly constructed UDT when both
address bodies together fit the pointer arithmetic without wrapping. -/
theorem newUDT_eq2 (pcls : Nat) (r : Bool) (A B : PartyAddress) (data : List Nat)
    (h : A.body.length + B.body.length ≤ 247) :
    NewUDT pcls r A B data =
      UDT.mk 9 (NewProtocolClass pcls r) 3 (A.body.length + 3)
        (A.body.length + B.body.length + 3) A B (data.length % 256) data := by
  simp [NewUDT, UDT.SetLength, PartyAddress.Length, MsgTypeUDT, UDT.mk.injEq]
  omega

set_option maxHeartbeats 1000000 in
/-- Closed form of the bytes produced by marshalling a freshly constructed
UDT: header, pointers, the two length-prefixed address blocks, the
data-length byte and the payload, in order. -/
theorem marshalBinary_newUDT (pcls : Nat) (r : Bool) (A B : PartyAddress) (data : List Nat)
    (hab : A.body.length + B.body.length ≤ 247) (hd : data.length ≤ 255) :
    (NewUDT pcls r A B data).MarshalBinary =
      .ok (9 :: NewProtocolClass pcls r :: 3 :: (A.body.length + 3) ::
           (A.body.length + B.body.length + 3) :: A.body.length ::
           (A.body ++ B.body.length :: (B.body ++ data.length :: data))) := by
  rw [newUDT_eq2 pcls r A B data hab]
  have md : data.length % 256 = data.length := by omega
  rw [md]
  have hL : (UDT.mk 9 (NewProtocolClass pcls r) 3 (A.body.length + 3)
        (A.body.length + B.body.length + 3) A B data.length data).MarshalLen
      = (A.body.length + B.body.length + data.length + 3) + 5 := by
    simp [UDT.MarshalLen, PartyAddress.MarshalLen]; omega
  simp only [UDT.MarshalBinary, hL, replicate_add5, UDT.MarshalTo, ProtocolClass.Value]
  have hset : ((((((0 :: 0 :: 0 :: 0 :: 0 ::
        List.replicate (A.body.length + B.body.length + data.length + 3) 0).set 0 9).set 1
        (NewProtocolClass pcls r)).set 2 3).set 3 (A.body.length + 3)).set 4
        (A.body.length + B.body.length + 3))
      = 9 :: NewProtocolClass pcls r :: 3 :: (A.body.length + 3) ::
        (A.body.length + B.body.length + 3) ::
        List.replicate (A.body.length + B.body.length + data.length + 3) 0 := rfl
  have hlen : (0 :: 0 :: 0 :: 0 :: 0 ::
        List.replicate (A.body.length + B.body.length + data.length + 3) 0).length
      = A.body.length + B.body.length + data.length + 8 := by
    simp only [List.length_cons, List.length_replicate]
  have m1 : (A.body.length + 3 + 3) % 256 = A.body.length + 6 := by omega
  have m2 : (A.body.length + B.body.length + 3 + 5) % 256
      = A.body.length + B.body.length + 8 := by omega
  have m3 : (A.body.length + B.body.length + 3 + 4) % 256
      = A.body.length + B.body.length + 7 := by omega
  simp only [hset, hlen, m1, m2, m3]
  rw [if_neg (by omega), if_neg (by omega), if_neg (by omega), if_neg (by omega)]
  have hg1 : goSlice (9 :: NewProtocolClass pcls r :: 3 :: (A.body.length + 3) ::
        (A.body.length + B.body.length + 3) ::
        List.replicate (A.body.length + B.body.length + data.length + 3) 0) 5
        (A.body.length + 6)
      = .ok (List.replicate (A.body.length + 1) 0) := by
    simp only [goSlice, List.length_cons, List.length_replicate]
    rw [if_pos (by omega)]
    simp only [List.drop_succ_cons, List.drop_zero]
    rw [show A.body.length + 6 - 5 = A.body.length + 1 from by omega, List.take_replicate,
      show min (A.body.length + 1) (A.body.length + B.body.length + data.length + 3)
        = A.body.length + 1 from by omega]
  simp only [hg1]
  have hA : PartyAddress.MarshalTo A (List.replicate (A.body.length + 1) 0)
      = .ok (A.body.length :: A.body) := by
    simp only [PartyAddress.MarshalTo, List.length_replicate]
    rw [if_neg (by omega), show A.body.length % 256 = A.body.length from by omega]
    simp [List.drop_replicate]
  simp only [hA]
  have hb4 : List.take 5 (9 :: NewProtocolClass pcls r :: 3 :: (A.body.length + 3) ::
          (A.body.length + B.body.length + 3) ::
          List.replicate (A.body.length + B.body.length + data.length + 3) 0)
        ++ (A.body.length :: A.body)
        ++ List.drop (A.body.length + 6) (9 :: NewProtocolClass pcls r :: 3 ::
          (A.body.length + 3) :: (A.body.length + B.body.length + 3) ::
          List.replicate (A.body.length + B.body.length + data.length + 3) 0)
      = 9 :: NewProtocolClass pcls r :: 3 :: (A.body.length + 3) ::
        (A.body.length + B.body.length + 3) :: A.body.length ::
        (A.body ++ List.replicate (B.body.length + data.length + 2) 0) := by
    simp only [List.take_succ_cons, List.take_zero, List.drop_succ_cons, List.drop_replicate]
    rw [show A.body.length + B.body.length + data.length + 3 - (A.body.length + 1)
        = B.body.length + data.length + 2 from by omega]
    simp [List.cons_append, List.append_assoc]
  simp only [hb4]
  have hg2 : goSlice (9 :: NewProtocolClass pcls r :: 3 :: (A.body.length + 3) ::
        (A.body.length + B.body.length + 3) :: A.body.length ::
        (A.body ++ List.replicate (B.body.length + data.length + 2) 0))
        (A.body.length + 6) (A.body.length + B.body.length + 7)
      = .ok (List.replicate (B.body.length + 1) 0) := by
    simp only [goSlice, List.length_cons, List.length_append, List.length_replicate]
    rw [if_pos (by omega)]
    simp only [List.drop_succ_cons, List.drop_left]
    rw [show A.body.length + B.body.length + 7 - (A.body.length + 6)
        = B.body.length + 1 from by omega, List.take_replicate,
      show min (B.body.length + 1) (B.body.length + data.length + 2)
        = B.body.length + 1 from by omega]
  simp only [hg2]
  have hB : PartyAddress.MarshalTo B (List.replicate (B.body.length + 1) 0)
      = .ok (B.body.length :: B.body) := by
    simp only [PartyAddress.MarshalTo, List.length_replicate]
    rw [if_neg (by omega), show B.body.length % 256 = B.body.length from by omega]
    simp [List.drop_replicate]
  simp only [hB]
  have hdrop5 : List.drop (A.body.length + B.body.length + 1)
        (A.body ++ List.replicate (B.body.length + data.length + 2) 0)
      = List.replicate (data.length + 1) 0 := by
    rw [List.drop_append_eq_append_drop]
    rw [List.drop_eq_nil_of_le (by omega)]
    rw [show A.body.length + B.body.length + 1 - A.body.length
        = B.body.length + 1 from by omega]
    rw [List.drop_replicate]
    rw [show B.body.length + data.length + 2 - (B.body.length + 1)
        = data.length + 1 from by omega]
    simp
  have hb5 : List.take (A.body.length + 6) (9 :: NewProtocolClass pcls r :: 3 ::
          (A.body.length + 3) :: (A.body.length + B.body.length + 3) :: A.body.length ::
          (A.body ++ List.replicate (B.body.length + data.length + 2) 0))
        ++ (B.body.length :: B.body)
        ++ List.drop (A.body.length + B.body.length + 7) (9 :: NewProtocolClass pcls r :: 3 ::
          (A.body.length + 3) :: (A.body.length + B.body.length + 3) :: A.body.length ::
          (A.body ++ List.replicate (B.body.length + data.length + 2) 0))
      = 9 :: NewProtocolClass pcls r :: 3 :: (A.body.length + 3) ::
        (A.body.length + B.body.length + 3) :: A.body.length ::
        (A.body ++ (B.body.length :: (B.body ++ List.replicate (data.length + 1) 0))) := by
    simp only [List.take_succ_cons, List.take_left, List.drop_succ_cons, hdrop5]
    simp [List.cons_append, List.append_assoc]
  simp only [hb5]
  have hgset : goSet (9 :: NewProtocolClass pcls r :: 3 :: (A.body.length + 3) ::
        (A.body.length + B.body.length + 3) :: A.body.length ::
        (A.body ++ (B.body.length :: (B.body ++ List.replicate (data.length + 1) 0))))
        (A.body.length + B.body.length + 7) data.length
      = .ok (9 :: NewProtocolClass pcls r :: 3 :: (A.body.length + 3) ::
        (A.body.length + B.body.length + 3) :: A.body.length ::
        (A.body ++ (B.body.length :: (B.body ++ (data.length :: List.replicate data.length 0))))) := by
    simp only [goSet, List.length_cons, List.length_append, List.length_replicate]
    rw [if_pos (by omega)]
    simp only [List.set_cons_succ]
    rw [show A.body.length + B.body.length + 1
        = A.body.length + (B.body.length + 1) from by omega]
    rw [set_append_len_add]
    simp only [List.set_cons_succ]
    rw [set_append_len]
    rw [show List.replicate (data.length + 1) (0 : Nat)
        = 0 :: List.replicate data.length 0 from rfl]
    simp only [List.set_cons_zero]
  simp only [hgset]
  rw [if_pos (by omega)]
  rw [show A.body.length + B.body.length + data.length + 8
      - (A.body.length + B.body.length + 8) = data.length from by omega]
  rw [List.take_length, Nat.min_self]
  have htk : List.take (A.body.length + B.body.length + 8)
        (9 :: NewProtocolClass pcls r :: 3 :: (A.body.length + 3) ::
         (A.body.length + B.body.length + 3) :: A.body.length ::
         (A.body ++ (B.body.length :: (B.body ++ (data.length :: List.replicate data.length 0)))))
      = 9 :: NewProtocolClass pcls r :: 3 :: (A.body.length + 3) ::
        (A.body.length + B.body.length + 3) :: A.body.length ::
        (A.body ++ (B.body.length :: (B.body ++ [data.length]))) := by
    simp only [List.take_succ_cons]
    rw [List.take_append_eq_append_take]
    rw [List.take_of_length_le (by omega)]
    rw [show A.body.length + B.body.length + 2 - A.body.length
        = B.body.length + 2 from by omega]
    simp only [List.take_succ_cons]
    rw [List.take_append_eq_append_take]
    rw [List.take_of_length_le (by omega)]
    rw [show B.body.length + 1 - B.body.length = 1 from by omega]
    rw [show List.take 1 (data.length :: List.replicate data.length 0)
        = [data.length] from rfl]
  have hdr : List.drop (A.body.length + B.body.length + 8 + data.length)
        (9 :: NewProtocolClass pcls r :: 3 :: (A.body.length + 3) ::
         (A.body.length + B.body.length + 3) :: A.body.length ::
         (A.body ++ (B.body.length :: (B.body ++ (data.length :: List.replicate data.length 0)))))
      = [] := by
    apply List.drop_eq_nil_of_le
    simp only [List.length_cons, List.length_append, List.length_replicate]
    omega
  rw [htk, hdr]
  simp [List.cons_append, List.append_assoc]

set_option maxHeartbeats 1000000 in
/-- Decoding the closed-form marshalled bytes of a freshly constructed UDT
recovers every field. -/
theorem unmarshal_fullBytes (pcls : Nat) (r : Bool) (A B : PartyAddress) (data : List Nat)
    (hab : A.body.length + B.body.length ≤ 247) (hd : data.length ≤ 255) :
    UDT.UnmarshalBinary (9 :: NewProtocolClass pcls r :: 3 :: (A.body.length + 3) ::
        (A.body.length + B.body.length + 3) :: A.body.length ::
        (A.body ++ B.body.length :: (B.body ++ data.length :: data)))
      = .ok (UDT.mk 9 (NewProtocolClass pcls r) 3 (A.body.length + 3)
          (A.body.length + B.body.length + 3) A B data.length data) := by
  have hlen2 : (9 :: NewProtocolClass pcls r :: 3 :: (A.body.length + 3) ::
        (A.body.length + B.body.length + 3) :: A.body.length ::
        (A.body ++ B.body.length :: (B.body ++ data.length :: data))).length
      = A.body.length + B.body.length + data.length + 8 := by
    simp only [List.length_cons, List.length_append]
    omega
  have m1 : (A.body.length + 3 + 3) % 256 = A.body.length + 6 := by omega
  have m2 : (A.body.length + B.body.length + 3 + 5) % 256
      = A.body.length + B.body.length + 8 := by omega
  have m3 : (A.body.length + B.body.length + 3 + 4) % 256
      = A.body.length + B.body.length + 7 := by omega
  have hg1 : goSlice (9 :: NewProtocolClass pcls r :: 3 :: (A.body.length + 3) ::
        (A.body.length + B.body.length + 3) :: A.body.length ::
        (A.body ++ B.body.length :: (B.body ++ data.length :: data))) 5 (A.body.length + 6)
      = .ok (A.body.length :: A.body) := by
    simp only [goSlice, hlen2]
    rw [if_pos (by omega)]
    simp only [List.drop_succ_cons, List.drop_zero]
    rw [show A.body.length + 6 - 5 = A.body.length + 1 from by omega]
    simp only [List.take_succ_cons, List.take_append_eq_append_take,
      List.take_of_length_le (Nat.le_refl A.body.length), Nat.sub_self, List.take_zero,
      List.append_nil]
  have hcd : ParseCalledPartyAddress (A.body.length :: A.body) = .ok A := by
    simp [ParseCalledPartyAddress]
  have hg2 : goSlice (9 :: NewProtocolClass pcls r :: 3 :: (A.body.length + 3) ::
        (A.body.length + B.body.length + 3) :: A.body.length ::
        (A.body ++ B.body.length :: (B.body ++ data.length :: data)))
        (A.body.length + 6) (A.body.length + B.body.length + 7)
      = .ok (B.body.length :: B.body) := by
    simp only [goSlice, hlen2]
    rw [if_pos (by omega)]
    simp only [List.drop_succ_cons, List.drop_left]
    rw [show A.body.length + B.body.length + 7 - (A.body.length + 6)
        = B.body.length + 1 from by omega]
    simp only [List.take_succ_cons, List.take_append_eq_append_take,
      List.take_of_length_le (Nat.le_refl B.body.length), Nat.sub_self, List.take_zero,
      List.append_nil]
  have hcg : ParseCallingPartyAddress (B.body.length :: B.body) = .ok B := by
    simp [ParseCallingPartyAddress, ParseCalledPartyAddress]
  have hgi : goIndex (9 :: NewProtocolClass pcls r :: 3 :: (A.body.length + 3) ::
        (A.body.length + B.body.length + 3) :: A.body.length ::
        (A.body ++ B.body.length :: (B.body ++ data.length :: data)))
        (A.body.length + B.body.length + 7) = .ok data.length := by
    simp only [goIndex, hlen2]
    rw [if_pos (by omega)]
    simp only [List.getD_cons_succ]
    rw [show A.body.length + B.body.length + 1
        = A.body.length + (B.body.length + 1) from by omega]
    rw [List.getD_append_right _ _ _ _ (by omega)]
    rw [show A.body.length + (B.body.length + 1) - A.body.length
        = B.body.length + 1 from by omega]
    simp only [List.getD_cons_succ]
    rw [List.getD_append_right _ _ _ _ (by omega)]
    rw [Nat.sub_self]
    simp
  have hdata : List.take data.length (List.drop (A.body.length + B.body.length + 8)
        (9 :: NewProtocolClass pcls r :: 3 :: (A.body.length + 3) ::
         (A.body.length + B.body.length + 3) :: A.body.length ::
         (A.body ++ B.body.length :: (B.body ++ data.length :: data)))) = data := by
    simp only [List.drop_succ_cons]
    rw [List.drop_append_eq_append_drop]
    rw [List.drop_eq_nil_of_le (by omega)]
    rw [show A.body.length + B.body.length + 2 - A.body.length
        = B.body.length + 2 from by omega]
    simp only [List.drop_succ_cons, List.nil_append]
    rw [List.drop_append_eq_append_drop]
    rw [List.drop_eq_nil_of_le (by omega)]
    rw [show B.body.length + 1 - B.body.length = 1 from by omega]
    simp [List.take_length]
  simp only [UDT.UnmarshalBinary, hlen2, ProtocolClass.Read, List.drop_succ_cons,
    List.drop_zero, List.getD_cons_zero, List.getD_cons_succ]
  rw [if_neg (by omega)]
  norm_num
  simp only [m1, m2, m3]
  rw [if_neg (by omega), if_neg (by omega), if_neg (by omega)]
  simp only [hg1, hcd, hg2, hcg, hgi]
  rw [if_pos (by omega)]
  simp only [hdata]

/-- C1 amended: the encode/decode round trip holds for every UDT built by
`NewUDT` whose address bodies keep the pointer arithmetic below 256
(`length(A) + length(B) ≤ 247`) and whose payload fits the one-byte length
field (`len(data) ≤ 255`): decoding the marshalled bytes succeeds and equals
the constructed message field for field, derived pointers included. -/
theorem udt_roundtrip (pcls : Nat) (r : Bool) (A B : PartyAddress) (data : List Nat)
    (hab : A.Length + B.Length ≤ 247) (hd : data.length ≤ 255) :
    (NewUDT pcls r A B data).MarshalBinary.bind ParseUDT = .ok (NewUDT pcls r A B data) := by
  have hab2 : A.body.length + B.body.length ≤ 247 := hab
  rw [marshalBinary_newUDT pcls r A B data hab2 hd, newUDT_eq2 pcls r A B data hab2,
    show data.length % 256 = data.length from by omega]
  simp only [Except.bind, ParseUDT]
  exact unmarshal_fullBytes pcls r A B data hab2 hd

/-- Witness for C1 (amended) at protocol class 1 with return-on-error, a
one-byte and a two-byte address body, and a three-byte payload. -/
theorem udt_roundtrip_witness :
    (NewUDT 1 true ⟨[7]⟩ ⟨[8, 9]⟩ [1, 2, 3]).MarshalBinary.bind ParseUDT
      = .ok (NewUDT 1 true ⟨[7]⟩ ⟨[8, 9]⟩ [1, 2, 3]) :=
  udt_roundtrip 1 true ⟨[7]⟩ ⟨[8, 9]⟩ [1, 2, 3] (by decide) (by decide)

end Sccp
